import Mathlib

/-!
Verification development for the remote-debug tunnel proxy and remote
virtual filesystem adapter of a VS Code App Service extension.

The definitions below are shallow embeddings of the TypeScript sources:

* `src/src/diagnostics/DebugProxy.ts`, first document (`DebugProxy`):
  an event-driven TCP/websocket relay, embedded as a state machine
  (`ProxyState`, `pstep`) whose events are exactly the event-handler
  registrations of `startProxy` together with explicit `dispose` calls.
* `src/src/diagnostics/DebugProxy.ts`, second document (`File`,
  `Directory`, `AppServiceFS`, `parseAppServiceUri`): the cached virtual
  filesystem, embedded as pure functions over explicit state, with
  remote HTTP effects recorded in a `RemoteCall` trace.

Strings from the TypeScript side are embedded as `List Char`, so that
JavaScript index arithmetic (`indexOf` returning `-1`, `substring`
clamping) can be stated exactly.
-/

set_option autoImplicit false

namespace AppSvc

/-! ### Directory refresh deduplication (`Directory.refreshEntries`)

`Directory` keeps `_entries : Map | undefined` and
`_refreshingTask : Promise | undefined`.  `refreshEntries` checks
`_refreshingTask` synchronously: if a task is in flight every caller
awaits that same promise; otherwise the caller starts
`actuallyRefreshEntries` (which performs exactly one remote listing
call), stores the promise, and clears it in a `finally` once it
settles.  JavaScript's single-threaded execution makes the
check-then-store step atomic, so we embed the behaviour as a small-step
system: an `enterRefresh` step is one caller reaching `refreshEntries`
on an unpopulated directory, and `completeRefresh` is the in-flight
promise settling, delivering the same snapshot to every caller that
joined it. -/

/-- State of one `Directory` node's refresh machinery plus
instrumentation: `remoteCalls` counts invocations of
`actuallyRefreshEntries` (one remote listing each), `joined` records
which task id each caller awaited, `observed` which snapshot each
caller received on completion. -/
structure RefreshState where
  refreshingTask : Option Nat
  entries : Option Nat
  remoteCalls : Nat
  nextTask : Nat
  joined : List (Nat × Nat)
  observed : List (Nat × Nat)
  deriving DecidableEq, Repr

/-- A directory that has never been fetched: no entries, no in-flight task. -/
def initRefresh : RefreshState :=
  { refreshingTask := none, entries := none, remoteCalls := 0,
    nextTask := 0, joined := [], observed := [] }

/-- One caller `c` executing `refreshEntries`: if `_refreshingTask` is
set it awaits that task, otherwise it starts `actuallyRefreshEntries`
(one remote listing call) and stores the fresh task. -/
def enterRefresh (c : Nat) (s : RefreshState) : RefreshState :=
  match s.refreshingTask with
  | some t => { s with joined := (c, t) :: s.joined }
  | none =>
    { s with refreshingTask := some s.nextTask,
             joined := (c, s.nextTask) :: s.joined,
             remoteCalls := s.remoteCalls + 1,
             nextTask := s.nextTask + 1 }

/-- The in-flight task settling with snapshot `snap`: the starter's
continuation stores `_entries = result` and the `finally` clears
`_refreshingTask`; every caller that awaited this task observes the
same `snap`. -/
def completeRefresh (snap : Nat) (s : RefreshState) : RefreshState :=
  match s.refreshingTask with
  | some t =>
    { s with entries := some snap,
             refreshingTask := none,
             observed := (s.joined.filter (fun p => p.2 == t)).map
               (fun p => (p.1, snap)) ++ s.observed }
  | none => s

/-! ### The tunnel proxy (`DebugProxy`)

The proxy owns `_server`, `_wsclient`, `_wsconnection` (all nullable)
and `_openSockets`.  We embed the handlers registered in `startProxy`
as a step function over events; emissions (`this.emit(...)`), upstream
sends, socket writes and socket destroys are recorded as actions.
Close/abort calls on the three owned resources are counted in the
state itself so that idempotency of `dispose` is a statement about
counters. -/

/-- Observable actions of the proxy: events emitted to the consumer,
messages sent upstream, writes and destroys on local sockets. -/
inductive PAction where
  | emitStart : PAction
  | emitEnd : PAction
  | emitError : PAction
  | sendUpstream (data : List Nat) : PAction
  | writeSocket (sock : Nat) (data : List Nat) : PAction
  | destroySocket (sock : Nat) : PAction
  deriving DecidableEq, Repr

/-- Proxy state: the three nullable owned resources, the array of
accepted sockets (the source never removes entries from
`_openSockets`), the keep-alive flag, and counters for how many times
each owned resource was closed/aborted. -/
structure ProxyState where
  server : Option Unit
  wsclient : Option Unit
  wsconnection : Option Unit
  openSockets : List Nat
  keepAlive : Bool
  serverCloses : Nat
  wsclientAborts : Nat
  wsconnCloses : Nat
  deriving DecidableEq, Repr

/-- State right after the constructor ran and `startProxy` registered
all handlers: the server exists, the websocket client exists, no
upstream connection yet, no sockets accepted. -/
def initProxy : ProxyState :=
  { server := some (), wsclient := some (), wsconnection := none,
    openSockets := [], keepAlive := true,
    serverCloses := 0, wsclientAborts := 0, wsconnCloses := 0 }

/-- `DebugProxy.dispose`: close the connection if present and clear it,
abort the client if present and clear it, close the server if present
and clear it, destroy every socket in `_openSockets` (the array is not
cleared), and drop the keep-alive flag. -/
def dispose (s : ProxyState) : ProxyState × List PAction :=
  let s1 := match s.wsconnection with
    | some _ => { s with wsconnection := none, wsconnCloses := s.wsconnCloses + 1 }
    | none => s
  let s2 := match s1.wsclient with
    | some _ => { s1 with wsclient := none, wsclientAborts := s1.wsclientAborts + 1 }
    | none => s1
  let s3 := match s2.server with
    | some _ => { s2 with server := none, serverCloses := s2.serverCloses + 1 }
    | none => s2
  ({ s3 with keepAlive := false },
   s3.openSockets.map PAction.destroySocket)

/-- The events the registered handlers react to, plus an explicit
`disposeCall` (the public `dispose()` as invoked by the orchestrator). -/
inductive PEvent where
  | wsConnect : PEvent
  | wsClose : PEvent
  | wsError : PEvent
  | connectFailed : PEvent
  | newConnection (sock : Nat) : PEvent
  | socketData (sock : Nat) (data : List Nat) : PEvent
  | socketEnd (sock : Nat) : PEvent
  | socketError (sock : Nat) : PEvent
  | listening : PEvent
  | message (data : List Nat) : PEvent
  | disposeCall : PEvent
  deriving DecidableEq, Repr

/-- One handler firing, straight from the registrations in
`startProxy`.  `wsConnect` is guarded by `_wsclient` being present:
an aborted websocket client fires no `connect` event (environment
semantics of the websocket library); every other handler body is
unconditional, exactly as in the source. -/
def pstep (s : ProxyState) (e : PEvent) : ProxyState × List PAction :=
  match e with
  | PEvent.wsConnect =>
    match s.wsclient with
    | some _ => ({ s with wsconnection := some () }, [])
    | none => (s, [])
  | PEvent.wsClose =>
    let (s1, a1) := dispose s
    (s1, a1 ++ s1.openSockets.map PAction.destroySocket ++ [PAction.emitEnd])
  | PEvent.wsError =>
    let (s1, a1) := dispose s
    (s1, a1 ++ s1.openSockets.map PAction.destroySocket ++ [PAction.emitError])
  | PEvent.connectFailed =>
    let (s1, a1) := dispose s
    (s1, a1 ++ s1.openSockets.map PAction.destroySocket ++ [PAction.emitError])
  | PEvent.newConnection sock =>
    ({ s with openSockets := s.openSockets ++ [sock] }, [])
  | PEvent.socketData _ data =>
    match s.wsconnection with
    | some _ => (s, [PAction.sendUpstream data])
    | none => (s, [])
  | PEvent.socketEnd _ =>
    let (s1, a1) := dispose s
    (s1, a1 ++ [PAction.emitEnd])
  | PEvent.socketError sock =>
    let (s1, a1) := dispose s
    (s1, a1 ++ [PAction.destroySocket sock, PAction.emitError])
  | PEvent.listening =>
    (s, [PAction.emitStart])
  | PEvent.message data =>
    (s, s.openSockets.map (fun k => PAction.writeSocket k data))
  | PEvent.disposeCall =>
    dispose s

/-- Run the proxy from the post-`startProxy` state over a trace of
events, discarding the recorded actions. -/
def runProxy (tr : List PEvent) : ProxyState :=
  tr.foldl (fun s e => (pstep s e).1) initProxy

/-! ### Path truncation in the `File` constructor

`new File(file)` sets
`this.entryPath = file.path.substring(file.path.indexOf(home) + home.length + 1)`
with `home = 'home'`.  We embed JavaScript's `String.prototype.indexOf`
(first index of the pattern as a substring, `-1` when absent) and
`String.prototype.substring` (start index clamped into `[0, length]`). -/

/-- First index at which `pat` occurs as a contiguous substring of `s`,
or `none`. -/
def findSub (pat : List Char) : List Char → Option Nat
  | [] => if pat = [] then some 0 else none
  | c :: rest =>
    if pat.isPrefixOf (c :: rest) then some 0
    else (findSub pat rest).map (fun n => n + 1)

/-- JavaScript `s.indexOf(pat)`: the first occurrence index, `-1` when
`pat` does not occur in `s`. -/
def jsIndexOf (s pat : List Char) : Int :=
  match findSub pat s with
  | some n => (n : Int)
  | none => -1

/-- JavaScript `s.substring(start)`: `start` is clamped below to `0`
(via `Int.toNat`) and above to the length (via `List.drop`). -/
def jsSubstring (s : List Char) (start : Int) : List Char :=
  s.drop start.toNat

/-- The sentinel segment `home` used by the `File` constructor. -/
def homeSentinel : List Char := ['h', 'o', 'm', 'e']

/-- The `File` constructor's path truncation:
`file.path.substring(file.path.indexOf(home) + home.length + 1)`. -/
def entryPathOf (p : List Char) : List Char :=
  jsSubstring p (jsIndexOf p homeSentinel + (homeSentinel.length : Int) + 1)

/-! ### URI parsing (`parseAppServiceUri`)

`parseAppServiceUri` matches `uri.path` against the regular expression

`(\/subscriptions\/[^\/]+\/resourceGroups\/[^\/]+\/providers\/Microsoft\.Web\/sites\/[^\/]+)\/(.*)`

throwing `FileSystemError.FileNotFound` when there is no match, then
resolves group 1 (the site id) through the tree; an unresolvable site
id throws `FileSystemError.Unavailable`.  We embed the regex directly:
`[^\/]+` is a nonempty run of non-slash characters (greedy matching of
a slash-free class ends exactly at the next slash or the end), `.*`
captures the remainder of the path (the embedded paths contain no
newline), and JavaScript's `match` searches for the leftmost position
at which the pattern matches. -/

/-- The error kinds raised by the filesystem adapter.  `staleVersion`
stands for the remote HTTP error a conditional `putFile`/`deleteItem`
raises on a version-tag mismatch, `notImplemented` for the generic
`Error("Method not implemented.")` thrown by `rename`. -/
inductive FSErr where
  | fileNotFound : FSErr
  | unavailable : FSErr
  | permissionDenied : FSErr
  | notADirectory : FSErr
  | staleVersion : FSErr
  | notImplemented : FSErr
  deriving DecidableEq, Repr

/-- Drop a literal from the head of `s`, or fail. -/
def dropLit (lit s : List Char) : Option (List Char) :=
  if lit.isPrefixOf s then some (s.drop lit.length) else none

/-- Match `[^\/]+`: a nonempty maximal run of non-slash characters,
returning it and the rest of the input. -/
def matchSegment (s : List Char) : Option (List Char × List Char) :=
  let a := s.takeWhile (fun c => c ≠ '/')
  if a = [] then none else some (a, s.drop a.length)

def subscriptionsLit : List Char := "/subscriptions/".toList
def resourceGroupsLit : List Char := "/resourceGroups/".toList
def providersSitesLit : List Char := "/providers/Microsoft.Web/sites/".toList

/-- Match the whole pattern at the head of `s`, returning
(group 1 = site id, group 2 = entry path). -/
def matchSiteId (s : List Char) : Option (List Char × List Char) := do
  let r1 ← dropLit subscriptionsLit s
  let (seg1, r2) ← matchSegment r1
  let r3 ← dropLit resourceGroupsLit r2
  let (seg2, r4) ← matchSegment r3
  let r5 ← dropLit providersSitesLit r4
  let (seg3, r6) ← matchSegment r5
  match r6 with
  | '/' :: rest =>
    some (subscriptionsLit ++ seg1 ++ resourceGroupsLit ++ seg2 ++
          providersSitesLit ++ seg3, rest)
  | _ => none

/-- JavaScript `match` without anchors: try the pattern at each
position, leftmost first. -/
def searchSiteId : List Char → Option (List Char × List Char)
  | [] => matchSiteId []
  | c :: rest =>
    match matchSiteId (c :: rest) with
    | some r => some r
    | none => searchSiteId rest

/-- `parseAppServiceUri(uri)`: no regex match throws `FileNotFound`;
a matched but unresolvable site id (`ext.tree.findNode` returns
undefined) throws `Unavailable`; otherwise the site's client (here
abstracted to `Unit`) and the entry path are returned.  `resolve`
embeds `ext.tree.findNode`. -/
def parseAppServiceUri (resolve : List Char → Option Unit)
    (uriPath : List Char) : Except FSErr (List Char × List Char) :=
  match searchSiteId uriPath with
  | none => Except.error FSErr.fileNotFound
  | some (siteId, entryPath) =>
    match resolve siteId with
    | some _ => Except.ok (siteId, entryPath)
    | none => Except.error FSErr.unavailable

/-! ### The mutating adapter operations (`AppServiceFS`)

`writeFile`, `createDirectory`, `delete` and `rename` are embedded as
pure functions returning the updated adapter state, an
`Except FSErr Unit` outcome (the promise resolving or rejecting), and
the trace of remote HTTP calls issued, in order.  The remote
collaborators (`putFile`, `getFile`, `kuduClient.vfs.deleteItem`,
`ext.tree.findNode`) and the parent directory's cache lookup are
parameters of an `Env`; the parent directory node is modelled as
already resolved in the cache tree (a cache hit in `lookup`), so the
only listing call in a mutation's trace is the forced
`parent.refreshEntries` that follows the remote mutation. -/

/-- One remote HTTP call, in the order issued. -/
inductive RemoteCall where
  | put (p : List Char) (etag : Option (List Char)) : RemoteCall
  | listDir (p : List Char) : RemoteCall
  | getF (p : List Char) : RemoteCall
  | del (p : List Char) (ifMatch : List Char) : RemoteCall
  deriving DecidableEq, Repr

/-- The remote side and tree environment of one adapter operation:
`resolve` is `ext.tree.findNode`; `remoteEtag` the version tag the
remote currently holds for an entry path (`none` when the file does
not exist remotely); `putEtag` the tag a successful `putFile` returns;
`getEtag` the tag `getFile` reports; `entryIsFile` the kind `lookup`
finds for a path (`none`: not in the cache tree, `lookup` throws
`FileNotFound`); `deleteOk` whether the remote `deleteItem` succeeds;
`freshSnap` the children snapshot a forced refresh produces. -/
structure Env where
  resolve : List Char → Option Unit
  remoteEtag : List Char → Option (List Char)
  putEtag : List Char
  getEtag : List Char → List Char
  entryIsFile : List Char → Option Bool
  deleteOk : Bool
  freshSnap : Nat

/-- Adapter state touched by the mutating operations: the read-only
flag, the `_etags` map keyed by `uri.path`, and the parent directory
node's cached children (`_entries`) with a count of forced refreshes. -/
structure FSState where
  readonly : Bool
  etags : List (List Char × List Char)
  parentChildren : Option Nat
  parentRefreshes : Nat
  deriving DecidableEq, Repr

/-- `Map.get`: first binding for `k`. -/
def getAssoc (m : List (List Char × List Char)) (k : List Char) :
    Option (List Char) :=
  match m with
  | [] => none
  | (a, b) :: rest => if a = k then some b else getAssoc rest k

/-- `Map.set`: replace the binding for `k` (or add it). -/
def setAssoc (m : List (List Char × List Char)) (k v : List Char) :
    List (List Char × List Char) :=
  match m with
  | [] => [(k, v)]
  | (a, b) :: rest => if a = k then (k, v) :: rest else (a, b) :: setAssoc rest k v

/-- Characters of `p` strictly before its last `/`, or `none` when `p`
contains no slash. -/
def beforeLastSlash : List Char → Option (List Char)
  | [] => none
  | c :: rest =>
    match beforeLastSlash rest with
    | some d => some (c :: d)
    | none => if c = '/' then some [] else none

/-- Node's `path.dirname` on the slash-separated entry paths the
adapter produces (no trailing slash): everything before the last
slash, `/` when that is empty, `.` when there is no slash. -/
def dirname (p : List Char) : List Char :=
  match beforeLastSlash p with
  | some [] => ['/']
  | some d => d
  | none => ['.']

/-- The conditional `putFile(siteClient, content, path, etag?)`: with
no tag the put is unconditional; with a tag the remote accepts only if
the tag matches its current one, otherwise the HTTP call rejects
(version conflict). -/
def putFileRemote (env : Env) (p : List Char) (provided : Option (List Char)) :
    Except Unit (List Char) :=
  match provided with
  | none => Except.ok env.putEtag
  | some e =>
    if env.remoteEtag p = some e then Except.ok env.putEtag
    else Except.error ()

/-- The forced `parent.refreshEntries(kuduClient)` after a successful
mutation: one remote listing call, the children snapshot atomically
replaced. -/
def refreshParent (env : Env) (s : FSState) (parentPath : List Char) :
    FSState × List RemoteCall :=
  ({ s with parentChildren := some env.freshSnap,
            parentRefreshes := s.parentRefreshes + 1 },
   [RemoteCall.listDir parentPath])

/-- `AppServiceFS.writeFile`: read-only check, URI parse, conditional
`putFile` with the last-known tag from `_etags`, record the new tag,
then force-refresh the parent directory. -/
def writeFile (env : Env) (s : FSState) (uriPath : List Char) :
    FSState × Except FSErr Unit × List RemoteCall :=
  if s.readonly then (s, Except.error FSErr.permissionDenied, [])
  else
    match parseAppServiceUri env.resolve uriPath with
    | Except.error e => (s, Except.error e, [])
    | Except.ok (_siteId, entryPath) =>
      let provided := getAssoc s.etags uriPath
      match putFileRemote env entryPath provided with
      | Except.error _ =>
        (s, Except.error FSErr.staleVersion, [RemoteCall.put entryPath provided])
      | Except.ok newTag =>
        let s1 := { s with etags := setAssoc s.etags uriPath newTag }
        let (s2, rcs) := refreshParent env s1 (dirname entryPath)
        (s2, Except.ok (), RemoteCall.put entryPath provided :: rcs)

/-- `AppServiceFS.createDirectory`: read-only check, URI parse,
unconditional `putFile` of empty content at the path with a trailing
slash appended when absent, then force-refresh the parent. -/
def createDirectory (env : Env) (s : FSState) (uriPath : List Char) :
    FSState × Except FSErr Unit × List RemoteCall :=
  if s.readonly then (s, Except.error FSErr.permissionDenied, [])
  else
    match parseAppServiceUri env.resolve uriPath with
    | Except.error e => (s, Except.error e, [])
    | Except.ok (_siteId, entryPath) =>
      let dirPath := if entryPath.getLast? = some '/' then entryPath
                     else entryPath ++ ['/']
      match putFileRemote env dirPath none with
      | Except.error _ =>
        (s, Except.error FSErr.staleVersion, [RemoteCall.put dirPath none])
      | Except.ok _ =>
        let (s2, rcs) := refreshParent env s (dirname entryPath)
        (s2, Except.ok (), RemoteCall.put dirPath none :: rcs)

/-- `AppServiceFS.delete`: read-only check, URI parse, cache lookup of
the entry (absence throws `FileNotFound`), for a file a `getFile` to
obtain the current tag (empty tag for a directory), conditional
`deleteItem` with that `If-Match` tag, then force-refresh the parent. -/
def deleteOp (env : Env) (s : FSState) (uriPath : List Char) :
    FSState × Except FSErr Unit × List RemoteCall :=
  if s.readonly then (s, Except.error FSErr.permissionDenied, [])
  else
    match parseAppServiceUri env.resolve uriPath with
    | Except.error e => (s, Except.error e, [])
    | Except.ok (_siteId, entryPath) =>
      match env.entryIsFile entryPath with
      | none => (s, Except.error FSErr.fileNotFound, [])
      | some isFile =>
        let etag := if isFile then env.getEtag entryPath else []
        let calls1 := if isFile then [RemoteCall.getF entryPath] else []
        if env.deleteOk then
          let (s2, rcs) := refreshParent env s (dirname entryPath)
          (s2, Except.ok (), calls1 ++ RemoteCall.del entryPath etag :: rcs)
        else
          (s, Except.error FSErr.staleVersion,
           calls1 ++ [RemoteCall.del entryPath etag])

/-- `AppServiceFS.rename`: the read-only check precedes the
unconditional `throw new Error("Method not implemented.")`; the URI
arguments are never inspected and no remote call is made. -/
def rename (s : FSState) (_oldUriPath _newUriPath : List Char) :
    FSState × Except FSErr Unit × List RemoteCall :=
  if s.readonly then (s, Except.error FSErr.permissionDenied, [])
  else (s, Except.error FSErr.notImplemented, [])

/-- Run `refreshEntries` callers against an unpopulated directory:
each element of `callers` is one concurrent `readDirectory`/`stat`
reaching `refreshEntries` before the in-flight listing settles. -/
def runRefresh (callers : List Nat) : RefreshState :=
  callers.foldl (fun st c => enterRefresh c st) initRefresh

/-! ## Theorems -/

/-- Invariant of the refresh state after at least one caller reached
`refreshEntries` on an unpopulated directory and before the listing
settles: task `0` is in flight, exactly one remote listing call was
issued, and every caller awaits task `0`. -/
def RInv (s : RefreshState) : Prop :=
  s.refreshingTask = some 0 ∧ s.remoteCalls = 1 ∧ s.nextTask = 1 ∧
  s.observed = [] ∧ ∀ p ∈ s.joined, p.2 = 0

theorem enterRefresh_preserves_RInv {s : RefreshState} (c : Nat)
    (h : RInv s) : RInv (enterRefresh c s) := by
  obtain ⟨h1, h2, h3, h4, h5⟩ := h
  simp only [enterRefresh, h1]
  refine ⟨rfl, h2, h3, h4, ?_⟩
  intro p hp
  rcases List.mem_cons.mp hp with h | h
  · simp [h]
  · exact h5 p h

theorem foldl_enterRefresh_RInv (l : List Nat) {s : RefreshState}
    (h : RInv s) : RInv (l.foldl (fun st c => enterRefresh c st) s) := by
  induction l generalizing s with
  | nil => exact h
  | cons c rest ih => exact ih (enterRefresh_preserves_RInv c h)

theorem RInv_first_enter (c : Nat) : RInv (enterRefresh c initRefresh) := by
  refine ⟨rfl, rfl, rfl, rfl, ?_⟩
  intro p hp
  rcases List.mem_cons.mp hp with h | h
  · simp [h, initRefresh]
  · cases h

theorem runRefresh_RInv {callers : List Nat} (h : callers ≠ []) :
    RInv (runRefresh callers) := by
  match callers with
  | [] => exact absurd rfl h
  | c :: rest => exact foldl_enterRefresh_RInv rest (RInv_first_enter c)

/-- Claim C1: when a refresh is in flight, every concurrent caller of
`refreshEntries` awaits the same in-flight operation, so any number of
concurrent `readDirectory`/`stat` callers on an unpopulated directory
issue exactly one remote listing call and all observe the identical
children snapshot; on completion the in-flight handle is cleared, so a
subsequent call starts a fresh refresh (a second remote call with a new
task). -/
theorem refreshEntries_dedup (callers : List Nat) (h : callers ≠ []) :
    (runRefresh callers).remoteCalls = 1 ∧
    (∀ p ∈ (runRefresh callers).joined, p.2 = 0) ∧
    (∀ snap, (completeRefresh snap (runRefresh callers)).observed =
       (runRefresh callers).joined.map (fun p => (p.1, snap))) ∧
    (∀ snap, (completeRefresh snap (runRefresh callers)).entries = some snap ∧
             (completeRefresh snap (runRefresh callers)).refreshingTask = none) ∧
    (∀ snap c,
       (enterRefresh c (completeRefresh snap (runRefresh callers))).remoteCalls = 2 ∧
       (enterRefresh c (completeRefresh snap (runRefresh callers))).refreshingTask = some 1) := by
  obtain ⟨h1, h2, h3, h4, h5⟩ := runRefresh_RInv h
  refine ⟨h2, h5, ?_, ?_, ?_⟩
  · intro snap
    simp only [completeRefresh, h1]
    have hf : (runRefresh callers).joined.filter (fun p => p.2 == 0) =
        (runRefresh callers).joined := by
      apply List.filter_eq_self.mpr
      intro a ha
      simp [h5 a ha]
    rw [h4, List.append_nil, hf]
  · intro snap
    simp [completeRefresh, h1]
  · intro snap c
    simp only [completeRefresh, h1, enterRefresh]
    exact ⟨by rw [h2], by rw [h3]⟩

theorem refreshEntries_dedup_witness :
    (([0, 1, 2] : List Nat) ≠ []) ∧ (runRefresh [0, 1, 2]).remoteCalls = 1 :=
  ⟨by decide, (refreshEntries_dedup [0, 1, 2] (by decide)).1⟩

/-- Claim C2 counterexample: from the state right after `startProxy`,
a `listening` event alone makes the proxy emit `start` (the "proxy is
ready" signal consumers wait on) while `_wsconnection` is still
`undefined`, so the proxy does signal ready while the upstream
connection is absent. -/
theorem start_signal_before_connect_cex :
    initProxy.wsconnection = none ∧
    pstep initProxy PEvent.listening = (initProxy, [PAction.emitStart]) :=
  ⟨rfl, rfl⟩

/-- Claim C2 amended: the proxy emits the ready signal exactly on the
local listener's `listening` event, independent of the upstream
connection's state (the `listening` handler is
`() => { ...; this.emit('start'); }` with no guard). -/
theorem start_signal_iff_listening (s : ProxyState) (e : PEvent) :
    PAction.emitStart ∈ (pstep s e).2 ↔ e = PEvent.listening := by
  cases e <;> simp only [pstep] <;> (try split) <;> simp [dispose]

/-- Claim C3: while the upstream connection is present, a byte chunk
received from a local socket is forwarded as exactly one upstream
message equal to that chunk (no framing, no state change), and a
message received from upstream is written once to every socket in
`_openSockets`, not only the last sender. -/
theorem relay_one_to_one (s : ProxyState) (k : Nat) (d : List Nat)
    (h : s.wsconnection = some ()) :
    pstep s (PEvent.socketData k d) = (s, [PAction.sendUpstream d]) ∧
    pstep s (PEvent.message d) =
      (s, s.openSockets.map (fun j => PAction.writeSocket j d)) := by
  constructor
  · simp [pstep, h]
  · rfl

/-- A relaying state: upstream connected, two local sockets accepted. -/
def relayState : ProxyState :=
  { initProxy with wsconnection := some (), openSockets := [1, 2] }

theorem relay_one_to_one_witness :
    relayState.wsconnection = some () ∧
    (pstep relayState (PEvent.socketData 1 [7]) =
       (relayState, [PAction.sendUpstream [7]]) ∧
     pstep relayState (PEvent.message [7]) =
       (relayState, relayState.openSockets.map (fun j => PAction.writeSocket j [7]))) :=
  ⟨rfl, relay_one_to_one relayState 1 [7] rfl⟩

/-- `dispose` in closed form: all three owned references are cleared,
and each close/abort counter increases by one exactly when its
resource was still present. -/
theorem dispose_fst (s : ProxyState) :
    (dispose s).1 =
      { server := none, wsclient := none, wsconnection := none,
        openSockets := s.openSockets, keepAlive := false,
        serverCloses := s.serverCloses + (if s.server.isSome then 1 else 0),
        wsclientAborts := s.wsclientAborts + (if s.wsclient.isSome then 1 else 0),
        wsconnCloses := s.wsconnCloses + (if s.wsconnection.isSome then 1 else 0) } := by
  obtain ⟨sv, wc, wn, os, ka, c1, c2, c3⟩ := s
  cases sv <;> cases wc <;> cases wn <;> simp [dispose]

/-- Resource-accounting invariant: closes already performed plus the
close still owed for a live reference never exceed one per resource,
and as long as the websocket client is alive its connection has never
been closed (so a later `connect` event cannot lead to a second
close). -/
def PInv (s : ProxyState) : Prop :=
  s.serverCloses + (if s.server.isSome then 1 else 0) ≤ 1 ∧
  s.wsclientAborts + (if s.wsclient.isSome then 1 else 0) ≤ 1 ∧
  s.wsconnCloses + (if s.wsconnection.isSome then 1 else 0) ≤ 1 ∧
  (s.wsclient.isSome = true → s.wsconnCloses = 0)

theorem dispose_preserves_PInv {s : ProxyState} (h : PInv s) :
    PInv (dispose s).1 := by
  obtain ⟨h1, h2, h3, _⟩ := h
  rw [PInv, dispose_fst]
  exact ⟨by simpa using h1, by simpa using h2, by simpa using h3, by simp⟩

theorem pstep_preserves_PInv {s : ProxyState} (h : PInv s) (e : PEvent) :
    PInv (pstep s e).1 := by
  obtain ⟨h1, h2, h3, h4⟩ := h
  cases e with
  | wsConnect =>
    cases hw : s.wsclient with
    | none => simpa [pstep, hw] using ⟨h1, h2, h3, h4⟩
    | some u =>
      have hz : s.wsconnCloses = 0 := h4 (by rw [hw]; rfl)
      unfold PInv
      simp only [pstep, hw]
      refine ⟨by simpa using h1, ?_, by simp [hz], fun _ => hz⟩
      simpa [hw] using h2
  | wsClose => exact dispose_preserves_PInv ⟨h1, h2, h3, h4⟩
  | wsError => exact dispose_preserves_PInv ⟨h1, h2, h3, h4⟩
  | connectFailed => exact dispose_preserves_PInv ⟨h1, h2, h3, h4⟩
  | newConnection sock => exact ⟨h1, h2, h3, h4⟩
  | socketData sock data =>
    cases hw : s.wsconnection with
    | none => simpa [pstep, hw] using ⟨h1, h2, h3, h4⟩
    | some u => simpa [pstep, hw] using ⟨h1, h2, h3, h4⟩
  | socketEnd sock => exact dispose_preserves_PInv ⟨h1, h2, h3, h4⟩
  | socketError sock => exact dispose_preserves_PInv ⟨h1, h2, h3, h4⟩
  | listening => exact ⟨h1, h2, h3, h4⟩
  | message data => exact ⟨h1, h2, h3, h4⟩
  | disposeCall => exact dispose_preserves_PInv ⟨h1, h2, h3, h4⟩

theorem foldl_pstep_PInv (tr : List PEvent) {s : ProxyState} (h : PInv s) :
    PInv (tr.foldl (fun st e => (pstep st e).1) s) := by
  induction tr generalizing s with
  | nil => exact h
  | cons e rest ih => exact ih (pstep_preserves_PInv h e)

theorem runProxy_PInv (tr : List PEvent) : PInv (runProxy tr) :=
  foldl_pstep_PInv tr (by refine ⟨?_, ?_, ?_, ?_⟩ <;> decide)

/-- Claim C7: disposal is idempotent.  Across any trace of events (any
combination of upstream close/error, connect failure, local socket
end/error, each of which invokes `dispose`, possibly concurrently
queued), the listener, the websocket client and the upstream
connection are each closed/aborted at most once, and a further
`dispose` clears all three references while still never producing a
second close of any of them. -/
theorem proxy_dispose_idempotent (tr : List PEvent) :
    (runProxy tr).serverCloses ≤ 1 ∧
    (runProxy tr).wsclientAborts ≤ 1 ∧
    (runProxy tr).wsconnCloses ≤ 1 ∧
    (dispose (runProxy tr)).1.server = none ∧
    (dispose (runProxy tr)).1.wsclient = none ∧
    (dispose (runProxy tr)).1.wsconnection = none ∧
    (dispose (runProxy tr)).1.serverCloses ≤ 1 ∧
    (dispose (runProxy tr)).1.wsclientAborts ≤ 1 ∧
    (dispose (runProxy tr)).1.wsconnCloses ≤ 1 := by
  obtain ⟨h1, h2, h3, _⟩ := runProxy_PInv tr
  obtain ⟨g1, g2, g3, _⟩ := dispose_preserves_PInv (runProxy_PInv tr)
  refine ⟨le_trans (Nat.le_add_right _ _) h1,
          le_trans (Nat.le_add_right _ _) h2,
          le_trans (Nat.le_add_right _ _) h3,
          by rw [dispose_fst], by rw [dispose_fst], by rw [dispose_fst],
          le_trans (Nat.le_add_right _ _) g1,
          le_trans (Nat.le_add_right _ _) g2,
          le_trans (Nat.le_add_right _ _) g3⟩

/-- Claim C10: a byte chunk arriving on a local socket while the
upstream connection is absent is silently discarded: the `data`
handler guard `if (this._wsconnection)` fails, so no upstream message
is sent, no error is emitted and the state is unchanged (in
particular nothing is buffered for delivery after a later connect). -/
theorem data_without_upstream_dropped (s : ProxyState) (k : Nat)
    (d : List Nat) (h : s.wsconnection = none) :
    pstep s (PEvent.socketData k d) = (s, []) := by
  simp [pstep, h]

theorem data_without_upstream_dropped_witness :
    initProxy.wsconnection = none ∧
    pstep initProxy (PEvent.socketData 5 [1, 2, 3]) = (initProxy, []) :=
  ⟨rfl, data_without_upstream_dropped initProxy 5 [1, 2, 3] rfl⟩

/-- Claim C5 counterexample: on `"/foo/bar.txt"` the sentinel `home`
is absent (`indexOf` returns `-1`), yet the `File` constructor's
canonicalization returns the path `"/bar.txt"` (the substring from
index `-1 + 4 + 1 = 4`) instead of failing — the code has no
`MalformedPathError` path at all. -/
theorem canonicalize_no_error_cex :
    jsIndexOf "/foo/bar.txt".toList homeSentinel = -1 ∧
    entryPathOf "/foo/bar.txt".toList = "/bar.txt".toList :=
  ⟨by decide, by decide⟩

/-- Claim C5 amended: canonicalization returns the substring following
the first occurrence of the sentinel `home` plus its separator, so
`"/home/site/wwwroot/app.js"` yields `"site/wwwroot/app.js"`; on every
path in which the sentinel is absent, `indexOf` yields `-1` and the
result is the substring starting at index 4 — a path, not a failure. -/
theorem canonicalize_amended (p : List Char)
    (h : jsIndexOf p homeSentinel = -1) :
    entryPathOf "/home/site/wwwroot/app.js".toList =
      "site/wwwroot/app.js".toList ∧
    entryPathOf p = p.drop 4 := by
  refine ⟨by decide, ?_⟩
  simp only [entryPathOf, jsSubstring, h]
  norm_num [homeSentinel]
  rfl

theorem canonicalize_amended_witness :
    jsIndexOf "/abc".toList homeSentinel = -1 ∧
    (entryPathOf "/home/site/wwwroot/app.js".toList =
       "site/wwwroot/app.js".toList ∧
     entryPathOf "/abc".toList = "/abc".toList.drop 4) :=
  ⟨by decide, canonicalize_amended "/abc".toList (by decide)⟩

/-- Claim C9 counterexample: the URI path `"/foo"`, whose host
identifier is malformed (the site-id pattern does not match),
fails with `FileNotFound`, not `Unavailable`. -/
theorem parse_malformed_cex :
    parseAppServiceUri (fun _ => none) "/foo".toList =
      Except.error FSErr.fileNotFound ∧
    FSErr.fileNotFound ≠ FSErr.unavailable :=
  ⟨rfl, by decide⟩

/-- Claim C9 amended: a URI path on which the site-id pattern does not
match fails with `FileNotFound`; a well-formed path whose site id the
tree cannot resolve fails with `Unavailable`. -/
theorem parse_error_kinds (resolve : List Char → Option Unit)
    (p : List Char) :
    (searchSiteId p = none →
       parseAppServiceUri resolve p = Except.error FSErr.fileNotFound) ∧
    (∀ sid ep, searchSiteId p = some (sid, ep) → resolve sid = none →
       parseAppServiceUri resolve p = Except.error FSErr.unavailable) := by
  constructor
  · intro h
    simp [parseAppServiceUri, h]
  · intro sid ep h hr
    simp [parseAppServiceUri, h, hr]

/-- A well-formed adapter URI path, its site id and its entry path. -/
def goodUriPath : List Char :=
  "/subscriptions/sub1/resourceGroups/rg1/providers/Microsoft.Web/sites/app1/site/wwwroot/app.js".toList

def goodSiteId : List Char :=
  "/subscriptions/sub1/resourceGroups/rg1/providers/Microsoft.Web/sites/app1".toList

def goodEntryPath : List Char := "site/wwwroot/app.js".toList

theorem parse_error_kinds_witness :
    parseAppServiceUri (fun _ => none) "/foo".toList =
      Except.error FSErr.fileNotFound ∧
    parseAppServiceUri (fun _ => none) goodUriPath =
      Except.error FSErr.unavailable :=
  ⟨(parse_error_kinds (fun _ => none) "/foo".toList).1 rfl,
   (parse_error_kinds (fun _ => none) goodUriPath).2
     goodSiteId goodEntryPath rfl rfl⟩

/-- Claim C4: each mutating operation force-refreshes the parent
directory's cached children only after the remote mutation succeeds
and never before: on success the remote-call trace is exactly the
mutation followed by the parent listing, while a failed mutation
(in particular a write whose version tag is stale) rejects with the
stale-version error, leaves the adapter state — including the cached
parent listing — unchanged, and issues no listing call at all. -/
theorem mutations_refresh_parent_after_success (env : Env) (s : FSState)
    (u sid ep : List Char) (hro : s.readonly = false)
    (hp : parseAppServiceUri env.resolve u = Except.ok (sid, ep)) :
    (∀ e, getAssoc s.etags u = some e → env.remoteEtag ep ≠ some e →
       writeFile env s u =
         (s, Except.error FSErr.staleVersion, [RemoteCall.put ep (some e)])) ∧
    (∀ tag, putFileRemote env ep (getAssoc s.etags u) = Except.ok tag →
       writeFile env s u =
         ({ s with etags := setAssoc s.etags u tag,
                   parentChildren := some env.freshSnap,
                   parentRefreshes := s.parentRefreshes + 1 },
          Except.ok (),
          [RemoteCall.put ep (getAssoc s.etags u),
           RemoteCall.listDir (dirname ep)])) ∧
    (createDirectory env s u =
       ({ s with parentChildren := some env.freshSnap,
                 parentRefreshes := s.parentRefreshes + 1 },
        Except.ok (),
        [RemoteCall.put (if ep.getLast? = some '/' then ep else ep ++ ['/']) none,
         RemoteCall.listDir (dirname ep)])) ∧
    (∀ isFile, env.entryIsFile ep = some isFile → env.deleteOk = false →
       deleteOp env s u =
         (s, Except.error FSErr.staleVersion,
          (if isFile then [RemoteCall.getF ep] else []) ++
            [RemoteCall.del ep (if isFile then env.getEtag ep else [])])) ∧
    (∀ isFile, env.entryIsFile ep = some isFile → env.deleteOk = true →
       deleteOp env s u =
         ({ s with parentChildren := some env.freshSnap,
                   parentRefreshes := s.parentRefreshes + 1 },
          Except.ok (),
          (if isFile then [RemoteCall.getF ep] else []) ++
            [RemoteCall.del ep (if isFile then env.getEtag ep else []),
             RemoteCall.listDir (dirname ep)])) := by
  refine ⟨?_, ?_, ?_, ?_, ?_⟩
  · intro e he hne
    simp [writeFile, hro, hp, he, putFileRemote, hne]
  · intro tag htag
    simp [writeFile, hro, hp, htag, refreshParent]
  · simp [createDirectory, hro, hp, putFileRemote, refreshParent]
  · intro isFile hif hdel
    simp [deleteOp, hro, hp, hif, hdel]
  · intro isFile hif hdel
    simp [deleteOp, hro, hp, hif, hdel, refreshParent]

/-- A writable adapter state holding a stale tag for `goodUriPath`,
and an environment whose remote holds a newer tag. -/
def wfs : FSState :=
  { readonly := false, etags := [(goodUriPath, "old".toList)],
    parentChildren := some 3, parentRefreshes := 0 }

def testEnv : Env :=
  { resolve := fun _ => some (), remoteEtag := fun _ => some "new".toList,
    putEtag := "tag1".toList, getEtag := fun _ => "cur".toList,
    entryIsFile := fun _ => some true, deleteOk := true, freshSnap := 7 }

theorem mutations_refresh_parent_after_success_witness :
    (wfs.readonly = false ∧
     parseAppServiceUri testEnv.resolve goodUriPath =
       Except.ok (goodSiteId, goodEntryPath) ∧
     getAssoc wfs.etags goodUriPath = some "old".toList ∧
     testEnv.remoteEtag goodEntryPath ≠ some "old".toList) ∧
    writeFile testEnv wfs goodUriPath =
      (wfs, Except.error FSErr.staleVersion,
       [RemoteCall.put goodEntryPath (some "old".toList)]) :=
  ⟨⟨rfl, rfl, by decide, by decide⟩,
   (mutations_refresh_parent_after_success testEnv wfs goodUriPath
      goodSiteId goodEntryPath rfl rfl).1 "old".toList (by decide) (by decide)⟩

/-- Claim C6: when the adapter was constructed read-only, every
mutating operation fails immediately with `PermissionDenied` and the
remote-call trace is empty: zero calls reach the remote file client. -/
theorem readonly_blocks_mutations (env : Env) (s : FSState)
    (u : List Char) (h : s.readonly = true) :
    writeFile env s u = (s, Except.error FSErr.permissionDenied, []) ∧
    deleteOp env s u = (s, Except.error FSErr.permissionDenied, []) ∧
    createDirectory env s u = (s, Except.error FSErr.permissionDenied, []) := by
  refine ⟨?_, ?_, ?_⟩ <;> simp [writeFile, deleteOp, createDirectory, h]

/-- A read-only adapter state. -/
def roFS : FSState :=
  { readonly := true, etags := [], parentChildren := none, parentRefreshes := 0 }

theorem readonly_blocks_mutations_witness :
    roFS.readonly = true ∧
    (writeFile testEnv roFS goodUriPath =
       (roFS, Except.error FSErr.permissionDenied, []) ∧
     deleteOp testEnv roFS goodUriPath =
       (roFS, Except.error FSErr.permissionDenied, []) ∧
     createDirectory testEnv roFS goodUriPath =
       (roFS, Except.error FSErr.permissionDenied, [])) :=
  ⟨rfl, readonly_blocks_mutations testEnv roFS goodUriPath rfl⟩

/-- Claim C8 counterexample: on a read-only adapter, `rename` fails
with `PermissionDenied` — not `NotImplemented` — because the read-only
check precedes the `Method not implemented` throw. -/
theorem rename_readonly_cex :
    rename roFS "/a".toList "/b".toList =
      (roFS, Except.error FSErr.permissionDenied, []) ∧
    FSErr.permissionDenied ≠ FSErr.notImplemented :=
  ⟨rfl, by decide⟩

/-- Claim C8 amended: for every pair of URIs, `rename` fails
unconditionally without issuing any remote call: with
`PermissionDenied` when the adapter is read-only, and with
`NotImplemented` otherwise; no other error kind is raised. -/
theorem rename_always_fails (s : FSState) (p q : List Char) :
    rename s p q =
      (s,
       Except.error
         (if s.readonly then FSErr.permissionDenied else FSErr.notImplemented),
       []) := by
  by_cases h : s.readonly <;> simp [rename, h]

end AppSvc
